import Mathlib

/-!
# OpenCL weather analysis: host program `Solution.cpp`

Shallow embedding of the host side of the program (`readFile` and the
stages of `main`) and the properties of its specification.

* A `vector<int>` is a `List Int`; a `std::string` is a `List Char`.
* `float` values are rationals.  Every place where the program rounds a
  real result to `float` goes through a parameter `rnd : ℚ → ℚ`:
  `rnd = id` is exact arithmetic, `rnd = roundF32` is IEEE-754 binary32
  with round-to-nearest-even.
* `std::stof` is a library function.  It is the composition of a parameter
  `parse` (the decimal value denoted by a text, `none` when `std::stof`
  throws) with the rounding `rnd`.
* The OpenCL kernels (`my_kernels3.cl`) are not part of the sources; where a
  property needs them they are modelled from the specification.
-/

namespace Solution

/-! ## Padding block of `main` (lines 143-155) -/

/-- Work-group size, `size_t local_size = 1024;` (line 143). -/
def local_size : Nat := 1024

/-- Padding block of `main`, lines 145-155:
`padding_size = data->size() % local_size`; when it is non-zero a vector of
`local_size - padding_size` zeros is appended to `data`. -/
def padData (data : List Int) : List Int :=
  let padding_size := data.length % local_size
  if padding_size ≠ 0 then
    data ++ List.replicate (local_size - padding_size) 0
  else
    data

/-! ## Float arithmetic -/

/-- Conversion `float → int` (implicit in `data->push_back(...)`, line 49):
the fractional part is discarded, so the value is truncated toward zero.
The conversion is undefined in C++ for a value outside the `int` range; the
model gives the unbounded integer there and is evaluated only at values in
range. -/
def toInt (q : ℚ) : Int := Int.tdiv q.num q.den

/-- Nearest integer, ties to the even one. -/
def roundEven (q : ℚ) : Int :=
  let f := ⌊q⌋
  let r := q - f
  if r < 1 / 2 then f
  else if 1 / 2 < r then f + 1
  else if f % 2 = 0 then f else f + 1

/-- Exponent `e` of the binary32 binade of `q`: `2^e ≤ |q| < 2^(e+1)`, and
`-126` throughout the subnormal range. -/
def binade (q : ℚ) : Int := max (Int.log 2 |q|) (-126)

/-- Distance between neighbouring binary32 values around `q` (24-bit
significand). -/
def ulp32 (q : ℚ) : ℚ := (2 : ℚ) ^ (binade q - 23)

/-- IEEE-754 binary32 rounding, round-to-nearest-even: the `float` nearest
to the real number `q`.  Overflow to infinity is not modelled. -/
def roundF32 (q : ℚ) : ℚ := (roundEven (q / ulp32 q) : ℚ) * ulp32 q

/-! ## `readFile` (lines 22-53) -/

/-- The call `std::stof(tempString)`: `parse` gives the decimal number the text
denotes (`none` when `std::stof` throws), `rnd` rounds it to `float`. -/
def stof (rnd : ℚ → ℚ) (parse : List Char → Option ℚ) (text : List Char) : Option ℚ :=
  (parse text).map rnd

/-- Inner `for` loop of `readFile` (lines 34-48) over the characters of one
line, with the loop state `spaceCount`, `tempString`. -/
def scanLine : List Char → Nat → List Char → Nat × List Char
  | [], spaceCount, tempString => (spaceCount, tempString)
  | c :: rest, spaceCount, tempString =>
    if spaceCount < 5 then
      if c = ' ' then scanLine rest (spaceCount + 1) tempString
      else scanLine rest spaceCount tempString
    else
      scanLine rest spaceCount (tempString ++ [c])

/-- The `while (std::getline(file, string))` loop of `readFile` (lines 31-51)
over the lines of the file, with the state `data`, `spaceCount`.  Line 49 is
`data->push_back(std::stof(tempString) * 100)`: a `float` product converted to
`int`.  The result is `none` when `std::stof` throws. -/
def readLoop (rnd : ℚ → ℚ) (parse : List Char → Option ℚ) :
    List (List Char) → List Int → Nat → Option (List Int)
  | [], data, _ => some data
  | line :: rest, data, spaceCount =>
    match stof rnd parse (scanLine line spaceCount []).2 with
    | none => none
    | some v => readLoop rnd parse rest (data ++ [toInt (rnd (v * 100))]) 0

/-- The function `readFile`: `data` starts empty and `spaceCount` at 0
(lines 24-27).  The file is given as the sequence of its lines. -/
def readFile (rnd : ℚ → ℚ) (parse : List Char → Option ℚ) (file : List (List Char)) :
    Option (List Int) :=
  readLoop rnd parse file [] 0

/-- The Sample `readFile` stores for a line whose text denotes the decimal
`x` (line 49): `std::stof` rounds `x` to `float`, the product with 100 is a
`float`, the conversion to `int` truncates. -/
def sampleOf (rnd : ℚ → ℚ) (x : ℚ) : Int := toInt (rnd (rnd x * 100))

/-- The text `readFile` hands to `std::stof` for a line. -/
def columnText (line : List Char) : List Char := (scanLine line 0 []).2

/-- The characters that follow the `n`-th space of a text; empty when the
text has fewer than `n` spaces. -/
def afterSpaces : Nat → List Char → List Char
  | 0, l => l
  | _ + 1, [] => []
  | n + 1, c :: cs => if c = ' ' then afterSpaces n cs else afterSpaces (n + 1) cs

/-! ### Plain decimal texts

A concrete `parse` for the evaluations below: optional leading white space,
an optional sign, digits with an optional fraction.  `std::stof` throws
`std::invalid_argument` when the text does not start with a number; exponents,
hexadecimal floats, `inf` and `nan` are not covered. -/

/-- Value of a decimal digit. -/
def digitVal (c : Char) : Option Nat :=
  if '0' ≤ c ∧ c ≤ '9' then some (c.toNat - 48) else none

/-- Reads a run of digits: the number read so far, the count of digits, and
the remaining text. -/
def readDigits : List Char → Nat → Nat → Nat × Nat × List Char
  | [], acc, n => (acc, n, [])
  | c :: cs, acc, n =>
    match digitVal c with
    | some d => readDigits cs (10 * acc + d) (n + 1)
    | none => (acc, n, c :: cs)

/-- An unsigned decimal: `digits[.digits]` with at least one digit. -/
def parseUnsigned (t : List Char) : Option ℚ :=
  match readDigits t 0 0 with
  | (ip, ni, '.' :: fr) =>
    match readDigits fr 0 0 with
    | (fp, nf, _) => if ni + nf = 0 then none else some ((ip : ℚ) + (fp : ℚ) / (10 : ℚ) ^ nf)
  | (ip, ni, _) => if ni = 0 then none else some (ip : ℚ)

/-- A signed decimal after optional white space. -/
def parseDecimal (t : List Char) : Option ℚ :=
  match t.dropWhile Char.isWhitespace with
  | '-' :: r => (parseUnsigned r).map fun v => -v
  | '+' :: r => parseUnsigned r
  | r => parseUnsigned r

/-! ## Result stage of `main` (lines 282-286, 321, 342-350) -/

/-- Decoding `(float)n / 100.0f` (lines 282-285). -/
def decode (rnd : ℚ → ℚ) (n : Int) : ℚ := rnd (rnd (n : ℚ) / 100)

/-- The values `main` prints, by output line. -/
structure Report where
  /-- Line 342, `"Reduce Min = " << minVal`. -/
  reduceMin : ℚ
  /-- Line 343, `"Atomic Min = " << atomMinVal`. -/
  atomicMin : ℚ
  /-- Line 345, `"Reduce Max = " << maxVal`. -/
  reduceMax : ℚ
  /-- Line 346, `"Atomic Max = " << maxVal`. -/
  atomicMax : ℚ
  /-- Line 348, `"Mean = " << mean`. -/
  mean : ℚ
  /-- Line 350, `"Variance = " << variance`. -/
  variance : ℚ
  deriving DecidableEq

/-- Result stage of `main` for the dataset `data` read from the file, given
slot 0 of the buffers read back: `B0` (`reduce_find_min`), `C0`
(`reduce_find_max`), `D0` (`reduce_find_sum`), `G0` (`at_find_min`), `H0`
(`at_find_max`), `F0` (`reduce_find_sum_variance`).  At this point `data` has
gone through the padding block, so `data->size()` is the padded length, and
`F` has `input_elements` slots (line 170).  `atomMaxVal` is computed (line 285)
and not printed: line 346 prints `maxVal`. -/
def results (rnd : ℚ → ℚ) (data : List Int) (B0 C0 D0 G0 H0 : Int) (F0 : Nat) : Report :=
  let padded := padData data
  let input_elements := padded.length
  let minVal := decode rnd B0
  let maxVal := decode rnd C0
  let atomMinVal := decode rnd G0
  let _atomMaxVal := decode rnd H0
  let mean := rnd (rnd (rnd (D0 : ℚ) / rnd (padded.length : ℚ)) / 100)
  let variance := rnd (rnd (F0 : ℚ) / rnd (input_elements : ℚ))
  { reduceMin := minVal
    atomicMin := atomMinVal
    reduceMax := maxVal
    atomicMax := maxVal
    mean := mean
    variance := variance }

/-! ## Kernels -/

/-- Modelled from the spec: kernel `reduce_find_min` of `my_kernels3.cl`, which
is not among the sources.  Spec §4.3: the kernel runs over `A.length` work-items
in groups of `G`; work-group `g` reduces its `G`-element partition of the input
with `min` and writes the result to slot `g` of the output buffer.  The other
slots keep the zero the buffer was filled with (line 194). -/
def reduce_find_min (G : Nat) (A : List Int) : List Int :=
  (List.range A.length).map fun g =>
    if g < A.length / G then (((A.drop (g * G)).take G).min?).getD 0 else 0

/-- Modelled from the spec: kernel `reduce_find_max` of `my_kernels3.cl`, as
`reduce_find_min` with `max`. -/
def reduce_find_max (G : Nat) (A : List Int) : List Int :=
  (List.range A.length).map fun g =>
    if g < A.length / G then (((A.drop (g * G)).take G).max?).getD 0 else 0

/-- Modelled from the spec: kernel `at_find_min` of `my_kernels3.cl`.  Spec
§4.4: all elements of the input are folded with `min` into one location,
slot 0 of the output buffer. -/
def at_find_min (A : List Int) : List Int :=
  (List.range A.length).map fun i => if i = 0 then A.min?.getD 0 else 0

/-- Modelled from the spec: kernel `at_find_max` of `my_kernels3.cl`, as
`at_find_min` with `max`. -/
def at_find_max (A : List Int) : List Int :=
  (List.range A.length).map fun i => if i = 0 then A.max?.getD 0 else 0

/-- The extremum lines of `main` with the four extremum kernels run on the
padded buffer (lines 203-222, 245-249) and slot 0 of each output read back
(lines 282-285). -/
def mainExtrema (rnd : ℚ → ℚ) (data : List Int) (D0 : Int) (F0 : Nat) : Report :=
  let A := padData data
  results rnd data
    ((reduce_find_min local_size A).getD 0 0)
    ((reduce_find_max local_size A).getD 0 0)
    D0
    ((at_find_min A).getD 0 0)
    ((at_find_max A).getD 0 0)
    F0

/-! ## Helper lemmas on padding -/

theorem padCount_eq (n : Nat) :
    (local_size - n % local_size) % local_size
      = if n % local_size ≠ 0 then local_size - n % local_size else 0 := by
  unfold local_size
  split <;> omega

theorem padData_eq_append (data : List Int) :
    padData data
      = data ++ List.replicate ((local_size - data.length % local_size) % local_size) 0 := by
  rw [padCount_eq]
  unfold padData
  by_cases h : data.length % local_size ≠ 0
  · rw [if_pos h, if_pos h]
  · rw [if_neg h, if_neg h, List.replicate_zero, List.append_nil]

theorem foldl_min_replicate (n : Nat) (a b : Int) :
    List.foldl min a (List.replicate (n + 1) b) = min a b := by
  induction n generalizing a with
  | zero => simp
  | succ k ih =>
    rw [List.replicate_succ, List.foldl_cons, ih]
    simp [min_assoc]

theorem foldl_max_replicate (n : Nat) (a b : Int) :
    List.foldl max a (List.replicate (n + 1) b) = max a b := by
  induction n generalizing a with
  | zero => simp
  | succ k ih =>
    rw [List.replicate_succ, List.foldl_cons, ih]
    simp [max_assoc]

/-- Minimum of a buffer that ends in at least one zero. -/
theorem minOpt_append_zeros (x : Int) (xs : List Int) (n : Nat) :
    ((x :: xs) ++ List.replicate (n + 1) 0).min? = some (min (List.foldl min x xs) 0) := by
  rw [List.cons_append, List.min?_cons', List.foldl_append, foldl_min_replicate]

/-- Maximum of a buffer that ends in at least one zero. -/
theorem maxOpt_append_zeros (x : Int) (xs : List Int) (n : Nat) :
    ((x :: xs) ++ List.replicate (n + 1) 0).max? = some (max (List.foldl max x xs) 0) := by
  rw [List.cons_append, List.max?_cons', List.foldl_append, foldl_max_replicate]

/-- A dataset of full groups is left as it is. -/
theorem padData_full (data : List Int) (h : data.length % local_size = 0) :
    padData data = data := by
  unfold padData
  exact if_neg (not_not.mpr h)

/-- Padding an incomplete last group appends at least one zero. -/
theorem padData_incomplete (data : List Int) (h : data.length % local_size ≠ 0) :
    padData data
      = data ++ List.replicate ((local_size - data.length % local_size - 1) + 1) 0 := by
  have hlt : data.length % local_size < local_size := Nat.mod_lt _ (by decide)
  have he : local_size - data.length % local_size - 1 + 1
      = local_size - data.length % local_size := by omega
  rw [he]
  unfold padData
  exact if_pos h

/-- What the zero padding does to the extrema: when the last group is
incomplete the minimum of the padded buffer is `min m 0` and its maximum is
`max M 0`, for `m`, `M` the minimum and maximum of the dataset. -/
theorem padData_extrema (x : Int) (xs : List Int)
    (h : (x :: xs).length % local_size ≠ 0) :
    (padData (x :: xs)).min? = some (min (List.foldl min x xs) 0)
      ∧ (padData (x :: xs)).max? = some (max (List.foldl max x xs) 0) := by
  rw [padData_incomplete _ h]
  exact ⟨minOpt_append_zeros _ _ _, maxOpt_append_zeros _ _ _⟩

/-! ## Properties of the padding block -/

/-- C1: the padded sequence is the original sequence followed by exactly
`(G - N mod G) mod G` zeros (`G = local_size = 1024`, `N` the input length);
its length is `N + (G - N mod G) mod G`, a multiple of `G`; the first `N`
elements are the input; nothing is appended exactly when `N` is a multiple
of `G`. -/
theorem padData_spec (data : List Int) :
    padData data
        = data ++ List.replicate ((local_size - data.length % local_size) % local_size) 0
      ∧ (padData data).length
        = data.length + (local_size - data.length % local_size) % local_size
      ∧ local_size ∣ (padData data).length
      ∧ (padData data).take data.length = data
      ∧ (padData data = data ↔ local_size ∣ data.length) := by
  have h := padData_eq_append data
  have hl : (padData data).length
      = data.length + (local_size - data.length % local_size) % local_size := by
    rw [h, List.length_append, List.length_replicate]
  refine ⟨h, hl, ?_, ?_, ?_⟩
  · rw [hl]
    unfold local_size
    omega
  · rw [h, List.take_left]
  · constructor
    · intro he
      have hl2 := hl
      rw [he] at hl2
      unfold local_size at hl2 ⊢
      omega
    · intro hd
      have h0 : (local_size - data.length % local_size) % local_size = 0 := by
        unfold local_size at hd ⊢
        omega
      rw [h, h0, List.replicate_zero, List.append_nil]

/-- C5: padding does not change the sum: the sum of the padded buffer built
in `main` equals the sum of the original dataset. -/
theorem padData_sum (data : List Int) : (padData data).sum = data.sum := by
  rw [padData_eq_append, List.sum_append, List.sum_replicate]
  simp

/-- C2 (evaluation of the code): for the one-sample dataset `[5]` the padded
buffer has minimum 0 while the dataset has minimum 5; for `[-5]` the padded
buffer has maximum 0 while the dataset has maximum -5. -/
theorem padData_changes_extrema :
    (padData [5]).min? = some 0 ∧ ([5] : List Int).min? = some 5
      ∧ (padData [-5]).max? = some 0 ∧ ([-5] : List Int).max? = some (-5) := by
  have h5 := padData_extrema 5 [] (by decide)
  have h5' := padData_extrema (-5) [] (by decide)
  refine ⟨?_, rfl, ?_, rfl⟩
  · rw [h5.1]; rfl
  · rw [h5'.2]; rfl

/-! ## Result stage -/

/-- Length of the padded buffer of a dataset of four samples. -/
theorem padData_length_four (a b c d : Int) : (padData [a, b, c, d]).length = 1024 := by
  rw [padData_eq_append, List.length_append, List.length_replicate]
  rfl

/-- With exact arithmetic the mean of `main` is `D[0]` over the padded
length, over 100. -/
theorem results_mean_exact (data : List Int) (B0 C0 D0 G0 H0 : Int) (F0 : Nat) :
    (results id data B0 C0 D0 G0 H0 F0).mean
      = (D0 : ℚ) / ((padData data).length : ℚ) / 100 := rfl

/-- With exact arithmetic the variance of `main` is `F[0]` over the padded
length. -/
theorem results_variance_exact (data : List Int) (B0 C0 D0 G0 H0 : Int) (F0 : Nat) :
    (results id data B0 C0 D0 G0 H0 F0).variance
      = (F0 : ℚ) / ((padData data).length : ℚ) := rfl

/-- C3 (evaluation of the code): for the dataset `[123, 456, -200, 789]`
(`N = 4`, sum 1168) with `D[0]` the sum of the samples, the mean of `main` is
`1168 / 1024 / 100 = 73/6400` (about 0.0114), while `sum / N / 100 = 2.92`;
the two differ by more than 0.01. -/
theorem mean_divides_by_padded_length (B0 C0 G0 H0 : Int) (F0 : Nat) :
    (results id [123, 456, -200, 789] B0 C0
        (List.sum [123, 456, -200, 789]) G0 H0 F0).mean = 73 / 6400
      ∧ ((List.sum [123, 456, -200, 789] : Int) : ℚ)
          / (([123, 456, -200, 789] : List Int).length : ℚ) / 100 = 292 / 100
      ∧ (1 : ℚ) / 100 < |292 / 100 - 73 / 6400| := by
  refine ⟨?_, ?_, ?_⟩
  · rw [results_mean_exact, padData_length_four]
    norm_num
  · norm_num
  · rw [abs_of_nonneg] <;> norm_num

/-- C4 (evaluation of the code): for the dataset `[123, 456, -200, 789]`
(`N = 4`) the variance of `main` is `F[0] / 1024`, the divisor being the padded
length; with `F[0] = 1024` it is 1, while `F[0] / N = 256`. -/
theorem variance_divides_by_padded_length (B0 C0 D0 G0 H0 : Int) :
    (∀ F0 : Nat, (results id [123, 456, -200, 789] B0 C0 D0 G0 H0 F0).variance
        = (F0 : ℚ) / 1024)
      ∧ (results id [123, 456, -200, 789] B0 C0 D0 G0 H0 1024).variance = 1
      ∧ ((1024 : Nat) : ℚ) / (([123, 456, -200, 789] : List Int).length : ℚ) = 256 := by
  refine ⟨?_, ?_, ?_⟩
  · intro F0
    rw [results_variance_exact, padData_length_four]
    norm_num
  · rw [results_variance_exact, padData_length_four]
    norm_num
  · norm_num

/-- C10: two runs of the result stage that agree on `C[0]` print the same
value on the "Atomic Max" line, whatever `H[0]` and the other buffers hold: it
is the decoded tree-reduction maximum `C[0] / 100`.  The "Atomic Min" line is
`G[0] / 100`. -/
theorem atomicMax_ignores_H (rnd : ℚ → ℚ) (data data' : List Int)
    (B0 C0 D0 G0 H0 B0' C0' D0' G0' H0' : Int) (F0 F0' : Nat) (hC : C0 = C0') :
    (results rnd data B0 C0 D0 G0 H0 F0).atomicMax
        = (results rnd data' B0' C0' D0' G0' H0' F0').atomicMax
      ∧ (results rnd data B0 C0 D0 G0 H0 F0).atomicMax = decode rnd C0
      ∧ (results rnd data B0 C0 D0 G0 H0 F0).atomicMin = decode rnd G0 := by
  subst hC
  exact ⟨rfl, rfl, rfl⟩

/-- Witness for C10: two runs with `C[0] = 789` and `H[0] = 789` versus
`H[0] = -5`. -/
theorem atomicMax_ignores_H_witness :
    (789 : Int) = 789
      ∧ (789 : Int) ≠ -5
      ∧ (results id [123, 456, -200, 789] (-200) 789 1168 (-200) 789 0).atomicMax
          = (results id [123, 456, -200, 789] (-200) 789 1168 (-200) (-5) 0).atomicMax
      ∧ (results id [123, 456, -200, 789] (-200) 789 1168 (-200) 789 0).atomicMax
          = decode id 789
      ∧ (results id [123, 456, -200, 789] (-200) 789 1168 (-200) 789 0).atomicMin
          = decode id (-200) :=
  ⟨rfl, by decide,
    atomicMax_ignores_H id [123, 456, -200, 789] [123, 456, -200, 789]
      (-200) 789 1168 (-200) 789 (-200) 789 1168 (-200) (-5) 0 0 rfl⟩

/-! ## Extremum kernels -/

/-- Slot 0 of a buffer written slot by slot. -/
theorem getD_map_range_zero (n : Nat) (f : Nat → Int) (h : 0 < n) :
    ((List.range n).map f).getD 0 0 = f 0 := by
  cases n with
  | zero => exact absurd h (by decide)
  | succ k => simp [List.range_succ_eq_map]

/-- The dataset of two full groups: 1024 samples 10 then 1024 samples -10. -/
theorem twoGroups_padData :
    padData (List.replicate 1024 10 ++ List.replicate 1024 (-10))
      = List.replicate 1024 10 ++ List.replicate 1024 (-10) := by
  apply padData_full
  rw [List.length_append, List.length_replicate, List.length_replicate]
  rfl

/-- C6 (evaluation of the code against the kernels of the specification): for
the dataset of 1024 samples `10` followed by 1024 samples `-10` (two full
groups, no padding) the true minimum is `-10` and "Atomic Min" is
`decode (-10)`, but "Reduce Min", read from slot 0 of the tree reduction, is
`decode 10`, the minimum of the first group only; with exact arithmetic these
are `-1/10` and `1/10`. -/
theorem reduceMin_reads_first_group (rnd : ℚ → ℚ) (D0 : Int) (F0 : Nat) :
    (List.replicate 1024 10 ++ List.replicate 1024 (-10) : List Int).min? = some (-10)
      ∧ (mainExtrema rnd (List.replicate 1024 10 ++ List.replicate 1024 (-10)) D0 F0).atomicMin
          = decode rnd (-10)
      ∧ (mainExtrema rnd (List.replicate 1024 10 ++ List.replicate 1024 (-10)) D0 F0).reduceMin
          = decode rnd 10
      ∧ decode id (-10) = -1 / 10
      ∧ decode id 10 = 1 / 10 := by
  have hmin : (List.replicate 1024 10 ++ List.replicate 1024 (-10) : List Int).min?
      = some (-10) := by
    have h1 : (List.replicate 1024 (10 : Int)) = 10 :: List.replicate 1023 10 := rfl
    have h2 : (List.replicate 1024 (-10 : Int)) = List.replicate (1023 + 1) (-10) := rfl
    have h3 : (List.replicate 1023 (10 : Int)) = List.replicate (1022 + 1) 10 := rfl
    rw [h1, h2, List.cons_append, List.min?_cons', List.foldl_append, foldl_min_replicate,
      h3, foldl_min_replicate]
    rfl
  have hlen : (List.replicate 1024 10 ++ List.replicate 1024 (-10) : List Int).length
      = 2048 := by
    rw [List.length_append, List.length_replicate, List.length_replicate]
  have hdec : ∀ n : Int, decode id n = (n : ℚ) / 100 := fun _ => rfl
  refine ⟨hmin, ?_, ?_, ?_, ?_⟩
  · show decode rnd ((at_find_min (padData _)).getD 0 0) = _
    rw [twoGroups_padData]
    unfold at_find_min
    rw [getD_map_range_zero _ _ (by rw [hlen]; decide), if_pos rfl, hmin]
    rfl
  · show decode rnd ((reduce_find_min local_size (padData _)).getD 0 0) = _
    rw [twoGroups_padData]
    unfold reduce_find_min
    rw [getD_map_range_zero _ _ (by rw [hlen]; decide), hlen,
      if_pos (by decide), Nat.zero_mul, List.drop_zero,
      List.take_left' (by rw [List.length_replicate]; rfl),
      List.min?_replicate_of_pos (by simp) (by decide)]
    rfl
  · rw [hdec]; norm_num
  · rw [hdec]; norm_num

/-! ## `readFile`: column extraction -/

theorem afterSpaces_nil (n : Nat) : afterSpaces n [] = [] := by
  cases n <;> rfl

/-- Once five spaces have been seen the loop copies the rest of the line. -/
theorem scanLine_copy (l : List Char) (k : Nat) (acc : List Char) (h : 5 ≤ k) :
    scanLine l k acc = (k, acc ++ l) := by
  induction l generalizing acc with
  | nil => simp [scanLine]
  | cons c cs ih =>
    unfold scanLine
    rw [if_neg (by omega), ih]
    simp

/-- The text built by the inner loop started with `k ≤ 5` spaces seen. -/
theorem scanLine_text (l : List Char) (k : Nat) (acc : List Char) (h : k ≤ 5) :
    (scanLine l k acc).2 = acc ++ afterSpaces (5 - k) l := by
  induction l generalizing k acc with
  | nil => simp [scanLine, afterSpaces_nil]
  | cons c cs ih =>
    by_cases hk : k < 5
    · have h5 : 5 - k = (4 - k) + 1 := by omega
      have h4 : 5 - (k + 1) = 4 - k := by omega
      unfold scanLine
      rw [if_pos hk, h5]
      by_cases hc : c = ' '
      · rw [if_pos hc, ih (k + 1) acc (by omega), h4]
        simp [afterSpaces, hc]
      · rw [if_neg hc, ih k acc h, h5]
        simp [afterSpaces, hc]
    · have hk5 : k = 5 := by omega
      subst hk5
      rw [scanLine_copy _ _ _ (le_refl 5)]
      rfl

/-- The text `readFile` parses for a line is what follows its fifth space. -/
theorem columnText_eq (line : List Char) : columnText line = afterSpaces 5 line := by
  unfold columnText
  rw [scanLine_text line 0 [] (by decide)]
  rfl

/-- A text with fewer than `n` spaces has nothing after its `n`-th space. -/
theorem afterSpaces_of_count_lt (n : Nat) (l : List Char) (h : l.count ' ' < n) :
    afterSpaces n l = [] := by
  induction l generalizing n with
  | nil => exact afterSpaces_nil n
  | cons c cs ih =>
    cases n with
    | zero => exact absurd h (Nat.not_lt_zero _)
    | succ m =>
      by_cases hc : c = ' '
      · subst hc
        rw [List.count_cons_self] at h
        simp only [afterSpaces, if_true]
        exact ih m (by omega)
      · have hne : (c == ' ') = false := by simpa using hc
        rw [List.count_cons, hne] at h
        simp only [afterSpaces, if_neg hc]
        exact ih (m + 1) (by simpa using h)

/-- What follows the space that is preceded by exactly `n` spaces. -/
theorem afterSpaces_split (n : Nat) (pre text : List Char) (h : pre.count ' ' = n) :
    afterSpaces (n + 1) (pre ++ ' ' :: text) = text := by
  induction pre generalizing n with
  | nil =>
    have h0 : n = 0 := by simpa using h.symm
    subst h0
    simp [afterSpaces]
  | cons c cs ih =>
    by_cases hc : c = ' '
    · subst hc
      rw [List.count_cons_self] at h
      cases n with
      | zero => exact absurd h (Nat.succ_ne_zero _)
      | succ m =>
        rw [List.cons_append]
        simp only [afterSpaces, if_true]
        exact ih m (by omega)
    · have hne : (c == ' ') = false := by simpa using hc
      rw [List.count_cons, hne] at h
      rw [List.cons_append]
      simp only [afterSpaces, if_neg hc]
      exact ih n (by simpa using h)

/-- The loop over the lines when every text is accepted by `std::stof`. -/
theorem readLoop_accepts (rnd : ℚ → ℚ) (parse : List Char → Option ℚ)
    (file : List (List Char)) (xs : List ℚ) (data : List Int)
    (h : List.Forall₂ (fun line x => parse (afterSpaces 5 line) = some x) file xs) :
    readLoop rnd parse file data 0 = some (data ++ xs.map (sampleOf rnd)) := by
  induction h generalizing data with
  | nil => simp [readLoop]
  | cons hx _ ih =>
    unfold readLoop
    have ht := columnText_eq
    unfold columnText at ht
    rw [ht, stof, hx]
    simp only [Option.map_some']
    rw [ih]
    simp [sampleOf]

/-- The loop over the lines when `std::stof` throws on some line. -/
theorem readLoop_throws (rnd : ℚ → ℚ) (parse : List Char → Option ℚ)
    (file : List (List Char)) (data : List Int)
    (h : ∃ line ∈ file, parse (afterSpaces 5 line) = none) :
    readLoop rnd parse file data 0 = none := by
  induction file generalizing data with
  | nil =>
    obtain ⟨line, hmem, _⟩ := h
    exact absurd hmem (List.not_mem_nil line)
  | cons l ls ih =>
    have ht := columnText_eq
    unfold columnText at ht
    unfold readLoop
    rw [ht, stof]
    cases hp : parse (afterSpaces 5 l) with
    | none => rfl
    | some v =>
      simp only [Option.map_some']
      apply ih
      obtain ⟨line, hmem, hnone⟩ := h
      rcases List.mem_cons.mp hmem with heq | hin
      · subst heq
        rw [hp] at hnone
        exact absurd hnone (by simp)
      · exact ⟨line, hin, hnone⟩

/-! ## `readFile`: the stored Sample -/

/-- The conversion to `int` is `⌊q⌋` for `q ≥ 0` and `⌈q⌉` for `q < 0`. -/
theorem toInt_eq (q : ℚ) : toInt q = if 0 ≤ q then ⌊q⌋ else ⌈q⌉ := by
  unfold toInt
  by_cases h : 0 ≤ q
  · rw [if_pos h, Int.tdiv_eq_ediv (Rat.num_nonneg.mpr h) (Int.ofNat_nonneg _), Rat.floor_def]
  · rw [if_neg h]
    have hc : ⌈q⌉ = -⌊-q⌋ := by rw [Int.floor_neg, neg_neg]
    have hn : q.num < 0 := Rat.num_neg.mpr (not_le.mp h)
    have hpos : 0 ≤ -q.num := by omega
    rw [hc, Rat.floor_def, Rat.neg_num, Rat.neg_den,
      ← Int.tdiv_eq_ediv hpos (Int.ofNat_nonneg _), Int.neg_tdiv, neg_neg]

/-- With exact arithmetic the Sample of a decimal `x` is `x * 100` truncated
toward zero. -/
theorem sampleOf_exact (x : ℚ) :
    sampleOf id x = if 0 ≤ x then ⌊x * 100⌋ else ⌈x * 100⌉ := by
  unfold sampleOf
  simp only [id]
  rw [toInt_eq]
  have h : (0 ≤ x * 100) ↔ 0 ≤ x := by
    constructor
    · intro hx; nlinarith
    · intro hx; positivity
  by_cases hx : 0 ≤ x
  · rw [if_pos hx, if_pos (h.mpr hx)]
  · rw [if_neg hx, if_neg (fun h' => hx (h.mp h'))]

/-- With exact arithmetic a decimal with at most two fractional digits,
`k / 100`, is stored as `k`. -/
theorem sampleOf_exact_two_digits (k : Int) : sampleOf id ((k : ℚ) / 100) = k := by
  rw [sampleOf_exact]
  have h : (k : ℚ) / 100 * 100 = (k : ℚ) := by ring
  rw [h]
  simp

/-- `readFile` on a file of one line whose text is accepted. -/
theorem readFile_single (rnd : ℚ → ℚ) (parse : List Char → Option ℚ)
    (line : List Char) (x : ℚ) (h : parse (afterSpaces 5 line) = some x) :
    readFile rnd parse [line] = some [sampleOf rnd x] := by
  unfold readFile
  rw [readLoop_accepts rnd parse [line] [x] [] (List.Forall₂.cons h List.Forall₂.nil)]
  rfl

theorem afterSpaces_line_1239 :
    afterSpaces 5 "2014 01 01 00 00 1.239".toList = "1.239".toList := by decide

theorem parseDecimal_1239 : parseDecimal "1.239".toList = some (1239 / 1000) := by
  simp [parseDecimal, parseUnsigned, readDigits, digitVal]
  norm_num

theorem afterSpaces_line_neg :
    afterSpaces 5 "2014 01 01 00 30 -3.456".toList = "-3.456".toList := by decide

theorem parseDecimal_neg : parseDecimal "-3.456".toList = some (-432 / 125) := by
  simp [parseDecimal, parseUnsigned, readDigits, digitVal]
  norm_num

/-! ## binary32 rounding -/

/-- The binade of a number between `2^e` and `2^(e+1)` in the normal range. -/
theorem binade_of_bounds (q : ℚ) (e : Int) (he : -126 ≤ e)
    (h1 : (2 : ℚ) ^ e ≤ |q|) (h2 : |q| < (2 : ℚ) ^ (e + 1)) : binade q = e := by
  have hpos : 0 < |q| := lt_of_lt_of_le (zpow_pos (by norm_num) e) h1
  have hlog : Int.log 2 |q| = e := by
    apply le_antisymm
    · have h := (Int.lt_zpow_iff_log_lt (b := 2) (by norm_num) hpos (x := e + 1)).mp
        (by simpa using h2)
      omega
    · exact (Int.zpow_le_iff_le_log (b := 2) (by norm_num) hpos).mp (by simpa using h1)
  unfold binade
  rw [hlog]
  exact max_eq_left he

/-- Rounding to nearest away from the ties: the integer within one half. -/
theorem roundEven_nearest (q : ℚ) (m : Int) (h1 : (m : ℚ) - 1 / 2 < q)
    (h2 : q < (m : ℚ) + 1 / 2) : roundEven q = m := by
  unfold roundEven
  by_cases hq : (m : ℚ) ≤ q
  · have hf : ⌊q⌋ = m := Int.floor_eq_iff.mpr ⟨hq, by linarith⟩
    simp only [hf]
    rw [if_pos (by linarith)]
  · have hlt : q < (m : ℚ) := not_le.mp hq
    have hf : ⌊q⌋ = m - 1 := Int.floor_eq_iff.mpr ⟨by push_cast; linarith, by push_cast; linarith⟩
    simp only [hf]
    rw [if_neg (by push_cast; linarith), if_pos (by push_cast; linarith)]
    omega

/-- Evaluation of `roundF32` on a number of the normal range with binade `e`
whose scaled significand is within one half of the integer `m`. -/
theorem roundF32_nearest (q : ℚ) (e m : Int) (he : -126 ≤ e)
    (h1 : (2 : ℚ) ^ e ≤ |q|) (h2 : |q| < (2 : ℚ) ^ (e + 1))
    (h3 : (m : ℚ) - 1 / 2 < q / (2 : ℚ) ^ (e - 23))
    (h4 : q / (2 : ℚ) ^ (e - 23) < (m : ℚ) + 1 / 2) :
    roundF32 q = (m : ℚ) * (2 : ℚ) ^ (e - 23) := by
  unfold roundF32 ulp32
  rw [binade_of_bounds q e he h1 h2, roundEven_nearest _ m h3 h4]

/-- The `float` nearest to 1.05 is `4404019 / 2^22`, about 1.04999995. -/
theorem roundF32_105 : roundF32 (105 / 100) = 4404019 / 4194304 := by
  rw [roundF32_nearest (105 / 100) 0 8808038 (by norm_num) (by norm_num [abs_of_pos])
    (by norm_num [abs_of_pos]) (by norm_num [zpow_neg]) (by norm_num [zpow_neg])]
  norm_num [zpow_neg]

/-- The `float` product `1.05f * 100` is `13762559 / 2^17`, about 104.99999. -/
theorem roundF32_105_times_100 :
    roundF32 (4404019 / 4194304 * 100) = 13762559 / 131072 := by
  rw [roundF32_nearest (4404019 / 4194304 * 100) 6 13762559 (by norm_num)
    (by norm_num [abs_of_pos]) (by norm_num [abs_of_pos])
    (by norm_num [zpow_neg]) (by norm_num [zpow_neg])]
  norm_num [zpow_neg]

/-- The integers 1168 and 1024 are `float` values. -/
theorem roundF32_1168_1024 : roundF32 1168 = 1168 ∧ roundF32 1024 = 1024 := by
  constructor
  · rw [roundF32_nearest 1168 10 9568256 (by norm_num) (by norm_num [abs_of_pos])
      (by norm_num [abs_of_pos]) (by norm_num [zpow_neg]) (by norm_num [zpow_neg])]
    norm_num [zpow_neg]
  · rw [roundF32_nearest 1024 10 8388608 (by norm_num) (by norm_num [abs_of_pos])
      (by norm_num [abs_of_pos]) (by norm_num [zpow_neg]) (by norm_num [zpow_neg])]
    norm_num [zpow_neg]

/-- The quotient `1168 / 1024 = 73 / 64` is a `float` value. -/
theorem roundF32_73_64 : roundF32 (73 / 64) = 73 / 64 := by
  rw [roundF32_nearest (73 / 64) 0 9568256 (by norm_num) (by norm_num [abs_of_pos])
    (by norm_num [abs_of_pos]) (by norm_num [zpow_neg]) (by norm_num [zpow_neg])]
  norm_num [zpow_neg]

/-- The `float` nearest to `73 / 6400` is `1530921 / 2^27`, about 0.01140625. -/
theorem roundF32_73_6400 : roundF32 (73 / 6400) = 1530921 / 134217728 := by
  rw [roundF32_nearest (73 / 6400) (-7) 12247368 (by norm_num) (by norm_num [abs_of_pos, zpow_neg])
    (by norm_num [abs_of_pos, zpow_neg]) (by norm_num [zpow_neg]) (by norm_num [zpow_neg])]
  norm_num [zpow_neg]

/-- In binary32 arithmetic the mean of `main` for the dataset
`[123, 456, -200, 789]` with `D[0] = 1168` is `1530921 / 2^27`, about 0.0114:
rounding does not bring it near 2.92. -/
theorem mean_binary32_four (B0 C0 G0 H0 : Int) (F0 : Nat) :
    (results roundF32 [123, 456, -200, 789] B0 C0 1168 G0 H0 F0).mean
        = 1530921 / 134217728
      ∧ (1 : ℚ) / 100 < |292 / 100 - 1530921 / 134217728| := by
  constructor
  · show roundF32 (roundF32 (roundF32 ((1168 : Int) : ℚ)
        / roundF32 (((padData [123, 456, -200, 789]).length : Nat) : ℚ)) / 100) = _
    rw [padData_length_four]
    have h1 : ((1168 : Int) : ℚ) = 1168 := by norm_num
    have h2 : ((1024 : Nat) : ℚ) = 1024 := by norm_num
    have h3 : (1168 : ℚ) / 1024 = 73 / 64 := by norm_num
    have h4 : (73 : ℚ) / 64 / 100 = 73 / 6400 := by norm_num
    rw [h1, h2, roundF32_1168_1024.1, roundF32_1168_1024.2, h3, roundF32_73_64, h4,
      roundF32_73_6400]
  · rw [abs_of_nonneg] <;> norm_num

/-- In binary32 the decimal 1.05 is stored as the Sample 104. -/
theorem sampleOf_binary32_105 : sampleOf roundF32 (105 / 100) = 104 := by
  unfold sampleOf
  rw [roundF32_105, roundF32_105_times_100, toInt_eq, if_pos (by norm_num)]
  exact Int.floor_eq_iff.mpr ⟨by norm_num, by norm_num⟩

/-- The product `1.05f * 100` kept exact (not rounded to `float`) also
converts to 104. -/
theorem toInt_exact_product_105 : toInt (roundF32 (105 / 100) * 100) = 104 := by
  rw [roundF32_105, toInt_eq, if_pos (by norm_num)]
  exact Int.floor_eq_iff.mpr ⟨by norm_num, by norm_num⟩

theorem afterSpaces_line_105 :
    afterSpaces 5 "2014 01 01 00 00 1.05".toList = "1.05".toList := by decide

theorem parseDecimal_105 : parseDecimal "1.05".toList = some (105 / 100) := by
  simp [parseDecimal, parseUnsigned, readDigits, digitVal]
  norm_num

/-! ## Concrete Samples -/

theorem sampleOf_exact_1239 : sampleOf id (1239 / 1000) = 123 := by
  rw [sampleOf_exact, if_pos (by norm_num)]
  exact Int.floor_eq_iff.mpr ⟨by norm_num, by norm_num⟩

theorem sampleOf_exact_neg : sampleOf id (-432 / 125) = -345 := by
  rw [sampleOf_exact, if_neg (by norm_num)]
  exact Int.ceil_eq_iff.mpr ⟨by norm_num, by norm_num⟩

theorem sampleOf_exact_105 : sampleOf id (105 / 100) = 105 := by
  have h := sampleOf_exact_two_digits 105
  norm_num at h ⊢
  exact h

/-! ## Properties of `readFile` -/

/-- C9 (as stated, refuted): the file whose only line is `2014 01 01 12.5`
has three spaces, the text handed to `std::stof` is empty, `std::stof` throws
and `readFile` has no result, so there is no Sample for that line. -/
theorem readFile_short_line_no_result :
    ¬ ∃ result : List Int,
        readFile id parseDecimal ["2014 01 01 12.5".toList] = some result
          ∧ result.length = 1 := by
  have h : readFile id parseDecimal ["2014 01 01 12.5".toList] = none := by decide
  rw [h]
  simp

/-- C9 (amended): for every file in which the text that follows the fifth
space of each line is accepted by `std::stof` (denoting the decimals `xs`,
line by line), `readFile` returns exactly one Sample per line, in file order,
the Sample of the text that follows the line's fifth space.  That text is
empty when the line has fewer than five spaces, and is `text` whenever the
line is `pre ++ ' ' :: text` with exactly four spaces in `pre` (spaces are
counted one by one, from 0 on every line, and later spaces stay in the
text). -/
theorem readFile_columns (rnd : ℚ → ℚ) (parse : List Char → Option ℚ)
    (file : List (List Char)) (xs : List ℚ)
    (h : List.Forall₂ (fun line x => parse (afterSpaces 5 line) = some x) file xs) :
    readFile rnd parse file = some (xs.map (sampleOf rnd))
      ∧ (xs.map (sampleOf rnd)).length = file.length
      ∧ ∀ line ∈ file,
          columnText line = afterSpaces 5 line
            ∧ (line.count ' ' < 5 → afterSpaces 5 line = [])
            ∧ ∀ pre text : List Char,
                line = pre ++ ' ' :: text → pre.count ' ' = 4 → afterSpaces 5 line = text := by
  refine ⟨?_, ?_, ?_⟩
  · unfold readFile
    rw [readLoop_accepts rnd parse file xs [] h]
    rfl
  · rw [List.length_map]
    exact h.length_eq.symm
  · intro line _
    refine ⟨columnText_eq line, afterSpaces_of_count_lt 5 line, ?_⟩
    intro pre text hl hc
    rw [hl]
    exact afterSpaces_split 4 pre text hc

/-- Witness for C9: a file of two lines. -/
theorem readFile_columns_witness :
    List.Forall₂ (fun line x => parseDecimal (afterSpaces 5 line) = some x)
        ["2014 01 01 00 00 1.239".toList, "2014 01 01 00 30 -3.456".toList]
        [1239 / 1000, -432 / 125]
      ∧ readFile id parseDecimal
          ["2014 01 01 00 00 1.239".toList, "2014 01 01 00 30 -3.456".toList]
        = some [123, -345] := by
  have h : List.Forall₂ (fun line x => parseDecimal (afterSpaces 5 line) = some x)
      ["2014 01 01 00 00 1.239".toList, "2014 01 01 00 30 -3.456".toList]
      [1239 / 1000, -432 / 125] :=
    List.Forall₂.cons (by rw [afterSpaces_line_1239]; exact parseDecimal_1239)
      (List.Forall₂.cons (by rw [afterSpaces_line_neg]; exact parseDecimal_neg)
        List.Forall₂.nil)
  refine ⟨h, ?_⟩
  rw [(readFile_columns id parseDecimal _ _ h).1]
  simp only [List.map_cons, List.map_nil, sampleOf_exact_1239, sampleOf_exact_neg]

/-- The `float` nearest to 1.239 is `10393485 / 2^23`, about 1.23899996. -/
theorem roundF32_1239 : roundF32 (1239 / 1000) = 10393485 / 8388608 := by
  rw [roundF32_nearest (1239 / 1000) 0 10393485 (by norm_num) (by norm_num [abs_of_pos])
    (by norm_num [abs_of_pos]) (by norm_num [zpow_neg]) (by norm_num [zpow_neg])]
  norm_num [zpow_neg]

/-- The `float` product `1.239f * 100` is `16239820 / 2^17`, about 123.89999. -/
theorem roundF32_1239_times_100 :
    roundF32 (10393485 / 8388608 * 100) = 16239820 / 131072 := by
  rw [roundF32_nearest (10393485 / 8388608 * 100) 6 16239820 (by norm_num)
    (by norm_num [abs_of_pos]) (by norm_num [abs_of_pos])
    (by norm_num [zpow_neg]) (by norm_num [zpow_neg])]
  norm_num [zpow_neg]

/-- In binary32 the decimal 1.239 is stored as the Sample 123. -/
theorem sampleOf_binary32_1239 : sampleOf roundF32 (1239 / 1000) = 123 := by
  unfold sampleOf
  rw [roundF32_1239, roundF32_1239_times_100, toInt_eq, if_pos (by norm_num)]
  exact Int.floor_eq_iff.mpr ⟨by norm_num, by norm_num⟩

/-- C7 (evaluation of the code): for the line `2014 01 01 00 00 1.239` the
decimal parsed is `x = 1.239` and the nearest integer to `x * 100` is 124, but
`readFile` stores 123, with exact arithmetic and with binary32 arithmetic
alike: the conversion to `int` on line 49 discards the fraction instead of
rounding.  In binary32 the same conversion stores the two-digit decimal 1.05
as 104, where the nearest integer to `1.05 * 100` is 105. -/
theorem readFile_not_round :
    parseDecimal (afterSpaces 5 "2014 01 01 00 00 1.239".toList) = some (1239 / 1000)
      ∧ round ((1239 / 1000 : ℚ) * 100) = 124
      ∧ readFile id parseDecimal ["2014 01 01 00 00 1.239".toList] = some [123]
      ∧ readFile roundF32 parseDecimal ["2014 01 01 00 00 1.239".toList] = some [123]
      ∧ round ((105 / 100 : ℚ) * 100) = 105
      ∧ sampleOf roundF32 (105 / 100) = 104 := by
  have hp : parseDecimal (afterSpaces 5 "2014 01 01 00 00 1.239".toList)
      = some (1239 / 1000) := by
    rw [afterSpaces_line_1239]; exact parseDecimal_1239
  refine ⟨hp, ?_, ?_, ?_, ?_, sampleOf_binary32_105⟩
  · rw [round_eq]
    exact Int.floor_eq_iff.mpr ⟨by norm_num, by norm_num⟩
  · rw [readFile_single id parseDecimal _ _ hp, sampleOf_exact_1239]
  · rw [readFile_single roundF32 parseDecimal _ _ hp, sampleOf_binary32_1239]
  · rw [round_eq]
    exact Int.floor_eq_iff.mpr ⟨by norm_num, by norm_num⟩

/-- C8 (evaluation of the code): for the line `2014 01 01 00 00 1.05` the
decimal parsed is `1.05 = 105 / 100`.  In binary32 arithmetic `readFile`
stores the Sample 104, also when the product with 100 is kept exact instead of
being rounded to `float`; decoding 104 gives 1.04, not 1.05.  With exact
arithmetic the Sample would be 105. -/
theorem readFile_binary32_loses_digit :
    parseDecimal (afterSpaces 5 "2014 01 01 00 00 1.05".toList) = some (105 / 100)
      ∧ readFile roundF32 parseDecimal ["2014 01 01 00 00 1.05".toList] = some [104]
      ∧ toInt (roundF32 (105 / 100) * 100) = 104
      ∧ decode id 104 ≠ 105 / 100
      ∧ readFile id parseDecimal ["2014 01 01 00 00 1.05".toList] = some [105] := by
  have hp : parseDecimal (afterSpaces 5 "2014 01 01 00 00 1.05".toList)
      = some (105 / 100) := by
    rw [afterSpaces_line_105]; exact parseDecimal_105
  refine ⟨hp, ?_, toInt_exact_product_105, ?_, ?_⟩
  · rw [readFile_single roundF32 parseDecimal _ _ hp, sampleOf_binary32_105]
  · show ((104 : Int) : ℚ) / 100 ≠ 105 / 100
    norm_num
  · rw [readFile_single id parseDecimal _ _ hp, sampleOf_exact_105]

end Solution
